import Mathlib

/-!
Verification of the environment-types transcoder of `cargo-contract`
(`src/cmd/extrinsics/transcode/env_types.rs`).

The development embeds the module shallowly:

* `HashMap` values are modelled as association lists where the most recent
  insertion is placed at the front; lookup takes the first match, so an
  insertion shadowing an older binding has exactly the observable
  behaviour of `HashMap::insert` overwriting the previous value.
* The external `scale_info::RegistryReadOnly` is modelled as a finite
  association list from numeric ids to structural paths; only the path of
  a resolved type is consumed by this module.
* The `while let` scan of `EnvTypesTranscoder::new` is embedded with an
  explicit fuel of `registry.length + 1`.  The Rust loop terminates at the
  first identifier the registry cannot resolve; since the registry holds
  `length` entries, at most `length` distinct identifiers resolve, so some
  identifier in `1 ..= length + 1` is unresolved and the fuel is never
  exhausted before that point (proved below as `exists_unresolved_id`).
* Rust aborts (the duplicate-registration failure of `register_transcoder`)
  are modelled as the `none` outcome of an `Option`-valued construction.
-/

namespace EnvTypes

/-- Association-list lookup, first (most recently inserted) binding wins.
Models `HashMap::get`. -/
def alistGet {κ α : Type} [DecidableEq κ] : List (κ × α) → κ → Option α
  | [], _ => none
  | e :: m, k => if e.1 = k then some e.2 else alistGet m k

/-- Association-list insertion: the new binding is placed in front and
shadows any previous binding of the same key, so lookups behave exactly as
after `HashMap::insert`. -/
def alistInsert {κ α : Type} (m : List (κ × α)) (k : κ) (v : α) : List (κ × α) :=
  (k, v) :: m

/-- Structural path of a type: ordered sequence of name segments.
Embeds `PathKey(Vec<String>)` from the source. -/
abbrev PathKey := List String

/-- Index from structural path to registry id.
Embeds `type TypesByPath = HashMap<PathKey, NonZeroU32>`; ids are kept as
plain naturals, the scan below only ever stores ids `≥ 1`. -/
abbrev TypesByPath := List (PathKey × Nat)

/-- The external type registry (`scale_info::RegistryReadOnly`), modelled
as a finite map from numeric id to the structural path of the type stored
there — the only component of the resolved type this module consumes. -/
abbrev Registry := List (Nat × PathKey)

/-- Embeds `RegistryReadOnly::resolve(id)`, restricted to the path of the
resolved type. -/
def Registry.resolve (r : Registry) (id : Nat) : Option PathKey :=
  alistGet r id

/-- The scanning loop of `EnvTypesTranscoder::new`:
`while let Some(ty) = registry.resolve(i) { types_by_path.insert(path, i); i += 1 }`,
with explicit fuel (see the module comment: fuel `registry.length + 1` is
never exhausted before the first unresolved id). -/
def buildTypesByPathGo (r : Registry) : Nat → Nat → TypesByPath → TypesByPath
  | 0, _, acc => acc
  | fuel + 1, i, acc =>
    match r.resolve i with
    | some p => buildTypesByPathGo r fuel (i + 1) (alistInsert acc p i)
    | none => acc

/-- The path index built at the start of `EnvTypesTranscoder::new`: scan
ids from 1 upward, record each resolved path, stop at the first id the
registry cannot resolve. -/
def buildTypesByPath (r : Registry) : TypesByPath :=
  buildTypesByPathGo r (r.length + 1) 1 []

/-- Embeds `struct EnvTypeId { type_id: NonZeroU32, display_name: Option<String> }`. -/
structure EnvTypeId where
  type_id : Nat
  display_name : Option String
deriving DecidableEq

/-- The closed set of custom encoders implemented in the source
(`impl EnvTypeEncoder for AccountId` and `impl EnvTypeEncoder for Balance`).
The trait-object table of the source only ever holds these two values, so
the boxed dynamic dispatch is embedded as a closed sum. -/
inductive Encoder
  | accountId
  | balance
deriving DecidableEq

/-- A catalog entry: what a type `T : EnvType + EnvTypeEncoder` supplies to
`register_transcoder` — the alias `T::ALIAS`, the structural path of
`T::Type` reported by its external `TypeInfo` implementation, and the
encoder itself. -/
structure EnvTypeEntry where
  aliasName : String
  typePath : PathKey
  encoder : Encoder
deriving DecidableEq

/-- Embeds `EnvTypeId::new::<T>(type_lookup)`: look the entry's canonical
path up in the index; absence gives `none` (the alias type is not used by
this contract), presence gives the matched id paired with the entry's
alias. -/
def EnvTypeId.new (e : EnvTypeEntry) (type_lookup : TypesByPath) : Option EnvTypeId :=
  (alistGet type_lookup e.typePath).map fun type_id =>
    { type_id := type_id, display_name := some e.aliasName }

/-- A per-argument type descriptor from contract metadata.  Embeds
`ink_metadata::TypeSpec<CompactForm>`: the registry type id and the
declared display-name path. -/
structure TypeSpec where
  id : Nat
  displayName : List String

/-- Embeds `impl From<&TypeSpec<CompactForm>> for EnvTypeId`: the id is
taken verbatim, the display name is the last segment of the declared
display-name path (none when the path has no segments). -/
def EnvTypeId.ofTypeSpec (ts : TypeSpec) : EnvTypeId :=
  { type_id := ts.id, display_name := ts.displayName.getLast? }

/-- Modelled from the spec: the SemanticValue tree (`scon::Value`, whose
module is not among the given sources) is "a tagged union over
{Literal(text), QuotedString(text), ByteSequence(bytes), …other structural
shapes}".  The variants matched by name in `env_types.rs` are kept
(`Value::Literal`, `Value::String`, `Value::Bytes`); the remaining
structural shapes, which the source handles through a single wildcard arm,
are represented by the last three constructors. -/
inductive Value
  | literal (s : String)
  | string (s : String)
  | bytes (bs : List Nat)
  | bool (b : Bool)
  | uint (n : Nat)
  | unit
deriving DecidableEq

/-- Discriminates the SemanticValue variants that fall into the wildcard
arm of the account-identifier encoder (neither Literal, QuotedString nor
ByteSequence). -/
def Value.isOtherShape : Value → Bool
  | .literal _ => false
  | .string _ => false
  | .bytes _ => false
  | _ => true

/-- The failure outcomes of `EnvTypeEncoder::encode`.  The source returns
`anyhow::Error` values built at four distinct sites; each site gets one
constructor here.  `invalidAddressText` covers the two text-parse sites
(literal and quoted string), `invalidByteLength` the byte-conversion site,
`unsupportedValueShape` the wildcard arm.  `unimplemented` stands for the
diverging `unimplemented!()` stub of the Balance encoder: the construct
aborts in Rust, i.e. unconditionally fails to produce bytes, and is
embedded as a distinguished failure outcome. -/
inductive EncodeError
  | invalidAddressText (text : String)
  | invalidByteLength (len : Nat)
  | unsupportedValueShape
  | unimplemented
deriving DecidableEq

/-! ### SS58 address decoding (external dependency)

`AccountId32::from_str` of the external `sp_core` crate parses an SS58
address: base58-decode the text, require 35 bytes, require the default
address-format byte 42, require the 2-byte blake2b-512 checksum over the
context string "SS58PRE" and the first 33 bytes, and return bytes 1..33 as
the 32-byte public key.  The embedding below implements that pipeline in
full (base58 and blake2b-512 included) so the address-parsing claims are
settled against real computation. -/

/-- The bitcoin-style base58 alphabet. -/
def base58Alphabet : List Char :=
  "123456789ABCDEFGHJKLMNPQRSTUVWXYZabcdefghijkmnopqrstuvwxyz".toList

/-- Value of one base58 digit, `none` for a character outside the alphabet. -/
def base58DigitValue (c : Char) : Option Nat :=
  base58Alphabet.findIdx? (fun a => a = c)

/-- Accumulates the base58 digits of a string into one natural number,
most significant digit first; fails on the first invalid character. -/
def base58DecodeNatGo (acc : Nat) : List Char → Option Nat
  | [] => some acc
  | c :: cs =>
    match base58DigitValue c with
    | some d => base58DecodeNatGo (acc * 58 + d) cs
    | none => none

/-- Big-endian base-256 digits of a natural number (no leading zero bytes),
with explicit fuel; `fuel` bounds the number of produced bytes. -/
def natToBytesBE (fuel : Nat) (n : Nat) (acc : List Nat) : List Nat :=
  match fuel with
  | 0 => acc
  | fuel + 1 => if n = 0 then acc else natToBytesBE fuel (n / 256) (n % 256 :: acc)

/-- Base58 decoding as done by the external base58 crate: interpret the
digits as one big number, expand it to big-endian bytes, and put one zero
byte in front for every leading `1` digit.  A string of `k` characters
denotes a number below `58 ^ k ≤ 256 ^ k`, so fuel `k` suffices for the
byte expansion. -/
def base58Decode (s : String) : Option (List Nat) :=
  let cs := s.toList
  match base58DecodeNatGo 0 cs with
  | none => none
  | some v =>
    let zeros := (cs.takeWhile (fun c => c = '1')).length
    some (List.replicate zeros 0 ++ natToBytesBE cs.length v [])

/-- Initialisation vector of blake2b (RFC 7693). -/
def blake2bIV : List Nat :=
  [0x6a09e667f3bcc908, 0xbb67ae8584caa73b, 0x3c6ef372fe94f82b, 0xa54ff53a5f1d36f1,
   0x510e527fade682d1, 0x9b05688c2b3e6c1f, 0x1f83d9abfb41bd6b, 0x5be0cd19137e2179]

/-- Message-schedule permutations of blake2b (RFC 7693); round `i` uses
row `i % 10`. -/
def blake2bSigma : List (List Nat) :=
  [[0, 1, 2, 3, 4, 5, 6, 7, 8, 9, 10, 11, 12, 13, 14, 15],
   [14, 10, 4, 8, 9, 15, 13, 6, 1, 12, 0, 2, 11, 7, 5, 3],
   [11, 8, 12, 0, 5, 2, 15, 13, 10, 14, 3, 6, 7, 1, 9, 4],
   [7, 9, 3, 1, 13, 12, 11, 14, 2, 6, 5, 10, 4, 0, 15, 8],
   [9, 0, 5, 7, 2, 4, 10, 15, 14, 1, 11, 12, 6, 8, 3, 13],
   [2, 12, 6, 10, 0, 11, 8, 3, 4, 13, 7, 5, 15, 14, 1, 9],
   [12, 5, 1, 15, 14, 13, 4, 10, 0, 7, 6, 3, 9, 2, 8, 11],
   [13, 11, 7, 14, 12, 1, 3, 9, 5, 0, 15, 4, 8, 6, 2, 10],
   [6, 15, 14, 9, 11, 3, 0, 8, 12, 2, 13, 7, 1, 4, 10, 5],
   [10, 2, 8, 4, 7, 6, 1, 5, 15, 11, 9, 14, 3, 12, 13, 0]]

/-- Rotate a 64-bit word right by `n` bits (word held as a natural `< 2^64`). -/
def rotr64 (n x : Nat) : Nat :=
  ((x >>> n) ||| (x <<< (64 - n))) % 2 ^ 64

/-- The G mixing function of blake2b on the 16-word working vector. -/
def blake2bG (v : List Nat) (a b c d x y : Nat) : List Nat :=
  let va := (v.getD a 0 + v.getD b 0 + x) % 2 ^ 64
  let vd := rotr64 32 (v.getD d 0 ^^^ va)
  let vc := (v.getD c 0 + vd) % 2 ^ 64
  let vb := rotr64 24 (v.getD b 0 ^^^ vc)
  let va2 := (va + vb + y) % 2 ^ 64
  let vd2 := rotr64 16 (vd ^^^ va2)
  let vc2 := (vc + vd2) % 2 ^ 64
  let vb2 := rotr64 63 (vb ^^^ vc2)
  (((v.set a va2).set b vb2).set c vc2).set d vd2

/-- One round of the blake2b compression function. -/
def blake2bRound (m : List Nat) (v : List Nat) (round : Nat) : List Nat :=
  let s := blake2bSigma.getD (round % 10) []
  let g := fun (v : List Nat) (a b c d i1 i2 : Nat) =>
    blake2bG v a b c d (m.getD (s.getD i1 0) 0) (m.getD (s.getD i2 0) 0)
  let v := g v 0 4 8 12 0 1
  let v := g v 1 5 9 13 2 3
  let v := g v 2 6 10 14 4 5
  let v := g v 3 7 11 15 6 7
  let v := g v 0 5 10 15 8 9
  let v := g v 1 6 11 12 10 11
  let v := g v 2 7 8 13 12 13
  g v 3 4 9 14 14 15

/-- Little-endian interpretation of a byte list as one word. -/
def bytesToWordLE (bs : List Nat) : Nat :=
  bs.foldr (fun b acc => acc * 256 + b) 0

/-- Little-endian bytes of a 64-bit word. -/
def wordToBytesLE (w : Nat) : List Nat :=
  (List.range 8).map fun i => w / 256 ^ i % 256

/-- The blake2b compression function: one 128-byte block, byte counter `t`,
final-block flag. -/
def blake2bCompress (h : List Nat) (block : List Nat) (t : Nat) (final : Bool) : List Nat :=
  let m := (List.range 16).map fun i => bytesToWordLE ((block.drop (8 * i)).take 8)
  let v := h ++ blake2bIV
  let v := v.set 12 (v.getD 12 0 ^^^ t % 2 ^ 64)
  let v := v.set 13 (v.getD 13 0 ^^^ t / 2 ^ 64 % 2 ^ 64)
  let v := if final then v.set 14 (v.getD 14 0 ^^^ (2 ^ 64 - 1)) else v
  let v := (List.range 12).foldl (blake2bRound m) v
  (List.range 8).map fun i => h.getD i 0 ^^^ v.getD i 0 ^^^ v.getD (i + 8) 0

/-- Unkeyed blake2b-512 of a message of at most 128 bytes (the SS58
checksum input is 40 bytes, a single block). -/
def blake2b512 (msg : List Nat) : List Nat :=
  let h0 := blake2bIV.set 0 (blake2bIV.getD 0 0 ^^^ 0x01010040)
  let block := msg ++ List.replicate (128 - msg.length) 0
  ((blake2bCompress h0 block msg.length true).map wordToBytesLE).flatten

/-- Bytes of the SS58 checksum context string "SS58PRE". -/
def ss58Context : List Nat := [83, 83, 53, 56, 80, 82, 69]

/-- SS58 check-decoding of a 32-byte account id at the default address
format 42, as performed by `AccountId32::from_str` of the external
`sp_core` crate. -/
def accountId32FromStr (s : String) : Option (List Nat) :=
  match base58Decode s with
  | none => none
  | some d =>
    if d.length = 35 then
      if d.getD 0 0 = 42 then
        if d.getD 33 0 = (blake2b512 (ss58Context ++ d.take 33)).getD 0 0 ∧
            d.getD 34 0 = (blake2b512 (ss58Context ++ d.take 33)).getD 1 0 then
          some ((d.drop 1).take 32)
        else none
      else none
    else none

/-! ### The encoders and the transcoder -/

/-- Embeds `impl EnvTypeEncoder for AccountId`: a Literal or a quoted
String is parsed as an SS58 address, a ByteSequence is converted through
`AccountId32::try_from` (succeeding exactly on length 32), every other
shape is rejected; the SCALE encoding of the resulting `AccountId32` is
its 32 raw bytes. -/
def accountIdEncode : Value → Except EncodeError (List Nat)
  | .literal s =>
    match accountId32FromStr s with
    | some bytes => .ok bytes
    | none => .error (.invalidAddressText s)
  | .string s =>
    match accountId32FromStr s with
    | some bytes => .ok bytes
    | none => .error (.invalidAddressText s)
  | .bytes bs =>
    if bs.length = 32 then .ok bs else .error (.invalidByteLength bs.length)
  | _ => .error .unsupportedValueShape

/-- Embeds `EnvTypeEncoder::encode` for the two implementations in the
source; the Balance implementation is the diverging `unimplemented!()`
stub, embedded as an unconditional failure. -/
def Encoder.encode : Encoder → Value → Except EncodeError (List Nat)
  | .accountId, v => accountIdEncode v
  | .balance, _ => .error .unimplemented

/-- The structural path of the environment account-id type
(`<ink_env::DefaultEnvironment as Environment>::AccountId`) as reported by
its external `TypeInfo` implementation.  The exact segments are opaque to
this module — every operation treats the path as an abstract key — so a
fixed representative is used. -/
def accountIdTypePath : PathKey := ["ink_env", "types", "AccountId"]

/-- The structural path of the environment balance type, a 128-bit
primitive; primitive types carry no path segments in the external type
registry. -/
def balanceTypePath : PathKey := []

/-- The catalog entry contributed by `struct AccountId` (`ALIAS = "AccountId"`). -/
def accountIdEnvType : EnvTypeEntry :=
  { aliasName := "AccountId", typePath := accountIdTypePath, encoder := .accountId }

/-- The catalog entry contributed by `struct Balance` (`ALIAS = "Balance"`). -/
def balanceEnvType : EnvTypeEntry :=
  { aliasName := "Balance", typePath := balanceTypePath, encoder := .balance }

/-- The dispatch table `encoders: HashMap<EnvTypeId, Box<dyn EnvTypeEncoder>>`. -/
abbrev EncoderMap := List (EnvTypeId × Encoder)

/-- Embeds `EnvTypesTranscoder::register_transcoder`: resolve the entry
against the index; on absence do nothing; on presence insert the encoder
under the resolved id, aborting (`none`) when a binding for that id already
exists.  (The source inserts first and then aborts on the returned previous
value; since the abort tears the construction down, checking before
inserting is observably identical.) -/
def registerTranscoder (type_lookup : TypesByPath) (m : EncoderMap) (e : EnvTypeEntry) :
    Option EncoderMap :=
  match EnvTypeId.new e type_lookup with
  | some type_id =>
    if (alistGet m type_id).isSome then none
    else some (alistInsert m type_id e.encoder)
  | none => some m

/-- The registration loop over a catalog of entries, starting from the
empty table — the generic shape of the body of `EnvTypesTranscoder::new`,
which registers its fixed catalog one entry at a time. -/
def buildEncoders (type_lookup : TypesByPath) (entries : List EnvTypeEntry) :
    Option EncoderMap :=
  entries.foldlM (registerTranscoder type_lookup) []

/-- Embeds `struct EnvTypesTranscoder`. -/
structure EnvTypesTranscoder where
  encoders : EncoderMap

/-- Embeds `EnvTypesTranscoder::new`: build the path index from the
registry, then register the AccountId transcoder and the Balance
transcoder in that order; `none` is the duplicate-registration abort. -/
def EnvTypesTranscoder.new (registry : Registry) : Option EnvTypesTranscoder := do
  let m ← registerTranscoder (buildTypesByPath registry) [] accountIdEnvType
  let m ← registerTranscoder (buildTypesByPath registry) m balanceEnvType
  pure { encoders := m }

/-- Embeds `EnvTypesTranscoder::try_encode`.  The output sink (`&mut O`)
is passed and returned explicitly; the source writes to it exactly once,
after the custom encoder has succeeded, so on the failure path the sink is
returned unchanged.  The first component is the `Result<bool>` value. -/
def EnvTypesTranscoder.tryEncode (t : EnvTypesTranscoder) (type_spec : TypeSpec)
    (value : Value) (output : List Nat) : Except EncodeError Bool × List Nat :=
  let type_id := EnvTypeId.ofTypeSpec type_spec
  match alistGet t.encoders type_id with
  | some transcoder =>
    match transcoder.encode value with
    | .ok encoded => (.ok true, output ++ encoded)
    | .error e => (.error e, output)
  | none => (.ok false, output)

/-! ### Concrete data for the scenario statements -/

/-- The well-known development address used by the scenario of the spec. -/
def aliceAddress : String := "5GrwvaEF5zXb26Fz9rcQpDWS57CtERHpNehXCPcNoHGKutQY"

/-- The 32 public-key bytes behind `aliceAddress`. -/
def alicePubkey : List Nat :=
  [212, 53, 147, 199, 21, 253, 211, 28, 97, 20, 26, 189, 4, 169, 159, 214, 130, 44,
   133, 88, 133, 76, 205, 227, 154, 86, 132, 231, 165, 109, 162, 125]

/-- A registry whose ids 1 and 2 hold unrelated types and whose id 3 holds
the account-id type, as in the scenario of the spec. -/
def scenarioRegistry : Registry := [(1, ["a"]), (2, ["b"]), (3, accountIdTypePath)]

/-- The type descriptor {id: 3, alias: "AccountId"} of the scenario. -/
def scenarioTypeSpec : TypeSpec := { id := 3, displayName := ["AccountId"] }

/-- An index binding one path to id 3, for concrete instantiations. -/
def demoLookup : TypesByPath := [(["A"], 3)]

/-- A catalog entry resolving against `demoLookup` under alias `X`. -/
def demoEntryX1 : EnvTypeEntry := { aliasName := "X", typePath := ["A"], encoder := .accountId }

/-- A second catalog entry with the same alias and path as `demoEntryX1`,
hence colliding with it. -/
def demoEntryX2 : EnvTypeEntry := { aliasName := "X", typePath := ["A"], encoder := .balance }

/-- An index binding two distinct paths, for the order-independence
instantiation. -/
def demoLookupAB : TypesByPath := [(["A"], 1), (["B"], 2)]

/-- An entry resolving to id 1 under alias `A` against `demoLookupAB`. -/
def demoEntryA : EnvTypeEntry := { aliasName := "A", typePath := ["A"], encoder := .accountId }

/-- An entry resolving to id 2 under alias `B` against `demoLookupAB`. -/
def demoEntryB : EnvTypeEntry := { aliasName := "B", typePath := ["B"], encoder := .balance }

/-- A registry in which ids 1 and 2 carry the same path, exercising the
overwrite behaviour of the index construction. -/
def demoDupRegistry : Registry := [(1, ["p"]), (2, ["p"])]

/-- The ids `i ..= j` are all resolvable in `r`.  With `i = 1`,
`scannedFrom r 1 j` says the scan of `EnvTypesTranscoder::new` visits id
`j` (no gap occurs before it); the general `i` is what the scanning loop
maintains from its current position. -/
def scannedFrom (r : Registry) (i j : Nat) : Prop :=
  ∀ m, i ≤ m → m ≤ j → (r.resolve m).isSome = true

/-! ### Theorems -/

/-- C2: for every index and catalog entry, `EnvTypeId.new` returns a value
if and only if the entry's canonical path is present in the index; on
presence the value is the matched id paired with the entry's alias, on
absence the result is `none` (no abort, no error — the function is total
into `Option`). -/
theorem c2_resolution_iff_path_present (e : EnvTypeEntry) (lookup : TypesByPath) :
    (EnvTypeId.new e lookup).isSome = (alistGet lookup e.typePath).isSome ∧
    (∀ tid, alistGet lookup e.typePath = some tid →
      EnvTypeId.new e lookup = some { type_id := tid, display_name := some e.aliasName }) ∧
    (alistGet lookup e.typePath = none → EnvTypeId.new e lookup = none) := by
  unfold EnvTypeId.new
  cases h : alistGet lookup e.typePath <;> simp [h]

/-- Closed instance of C2: the account-id entry resolves against an index
holding its path at id 5, and fails to resolve against an empty index. -/
theorem c2_resolution_iff_path_present_witness :
    EnvTypeId.new accountIdEnvType [(accountIdTypePath, 5)] =
      some { type_id := 5, display_name := some "AccountId" } ∧
    EnvTypeId.new accountIdEnvType [] = none := by
  exact ⟨(c2_resolution_iff_path_present accountIdEnvType [(accountIdTypePath, 5)]).2.1 5 rfl,
    (c2_resolution_iff_path_present accountIdEnvType []).2.2 rfl⟩

/-- C3: the dispatcher derives its lookup key from the descriptor's
registry id and the last segment of its display-name path; when an
encoder is registered under that key and succeeds, its bytes are appended
to the sink and `true` is returned; when no encoder is registered, `false`
is returned and the sink is untouched. -/
theorem c3_dispatch_key_and_outcomes (t : EnvTypesTranscoder) (ts : TypeSpec)
    (v : Value) (out : List Nat) :
    (∀ enc bs,
      alistGet t.encoders { type_id := ts.id, display_name := ts.displayName.getLast? } = some enc →
      enc.encode v = .ok bs →
      t.tryEncode ts v out = (.ok true, out ++ bs)) ∧
    (alistGet t.encoders { type_id := ts.id, display_name := ts.displayName.getLast? } = none →
      t.tryEncode ts v out = (.ok false, out)) := by
  constructor
  · intro enc bs h1 h2
    simp [EnvTypesTranscoder.tryEncode, EnvTypeId.ofTypeSpec, h1, h2]
  · intro h1
    simp [EnvTypesTranscoder.tryEncode, EnvTypeId.ofTypeSpec, h1]

/-- Closed instance of C3: a hit on key {7, "Acct"} appends the encoded
bytes, a miss on an empty table reports `false` and leaves the sink as it
was. -/
theorem c3_dispatch_key_and_outcomes_witness :
    EnvTypesTranscoder.tryEncode ⟨[({ type_id := 7, display_name := some "Acct" }, .accountId)]⟩
        ⟨7, ["m", "Acct"]⟩ (.bytes (List.replicate 32 9)) [5] =
      (.ok true, [5] ++ List.replicate 32 9) ∧
    EnvTypesTranscoder.tryEncode ⟨[]⟩ ⟨7, ["m", "Acct"]⟩ (.bytes (List.replicate 32 9)) [5] =
      (.ok false, [5]) := by
  exact ⟨(c3_dispatch_key_and_outcomes ⟨[({ type_id := 7, display_name := some "Acct" }, .accountId)]⟩
      ⟨7, ["m", "Acct"]⟩ (.bytes (List.replicate 32 9)) [5]).1 .accountId (List.replicate 32 9)
      (by rfl) (by rfl),
    (c3_dispatch_key_and_outcomes ⟨[]⟩ ⟨7, ["m", "Acct"]⟩ (.bytes (List.replicate 32 9)) [5]).2
      (by rfl)⟩

/-- C7: when the matched encoder fails on a value, the dispatcher
propagates exactly that failure, returns the sink unchanged, and never
reports the argument as handled. -/
theorem c7_encoder_failure_leaves_sink (t : EnvTypesTranscoder) (ts : TypeSpec)
    (v : Value) (out : List Nat) (enc : Encoder) (e : EncodeError)
    (h1 : alistGet t.encoders (EnvTypeId.ofTypeSpec ts) = some enc)
    (h2 : enc.encode v = .error e) :
    t.tryEncode ts v out = (.error e, out) := by
  simp [EnvTypesTranscoder.tryEncode, h1, h2]

/-- Closed instance of C7: the literal "not-an-address" makes the matched
account-id encoder fail; the sink keeps its prior contents and `true` is
never reported. -/
theorem c7_encoder_failure_leaves_sink_witness :
    EnvTypesTranscoder.tryEncode
        ⟨[({ type_id := 3, display_name := some "AccountId" }, .accountId)]⟩
        ⟨3, ["AccountId"]⟩ (.literal "not-an-address") [1, 2] =
      (.error (.invalidAddressText "not-an-address"), [1, 2]) := by
  exact c7_encoder_failure_leaves_sink
    ⟨[({ type_id := 3, display_name := some "AccountId" }, .accountId)]⟩
    ⟨3, ["AccountId"]⟩ (.literal "not-an-address") [1, 2] .accountId
    (.invalidAddressText "not-an-address") (by rfl) (by rfl)

/-- C8: the Balance encoder is an unconditional failure stub — on every
semantic value it fails without producing bytes. -/
theorem c8_balance_always_fails (v : Value) :
    Encoder.balance.encode v = .error .unimplemented := rfl

/-- C1: when two catalog entries resolve to the same `EnvTypeId`, the
registration loop checks the table before the colliding insertion and the
whole construction aborts (`none`) at construction time, whatever entries
follow — so no transcoder value exists on which an encode call could be
made, and the failure can never be deferred to a first lookup. -/
theorem c1_collision_aborts_construction (lookup : TypesByPath) (e₁ e₂ : EnvTypeEntry)
    (k : EnvTypeId) (rest : List EnvTypeEntry)
    (h₁ : EnvTypeId.new e₁ lookup = some k) (h₂ : EnvTypeId.new e₂ lookup = some k) :
    buildEncoders lookup (e₁ :: e₂ :: rest) = none := by
  have hr1 : registerTranscoder lookup [] e₁ = some (alistInsert [] k e₁.encoder) := by
    simp [registerTranscoder, h₁, alistGet]
  have hr2 : registerTranscoder lookup (alistInsert [] k e₁.encoder) e₂ = none := by
    simp [registerTranscoder, h₂, alistGet, alistInsert]
  simp [buildEncoders, List.foldlM, hr1, hr2]

/-- Closed instance of C1: two entries sharing alias `X` and path `A`
collide under id 3 and construction over them aborts. -/
theorem c1_collision_aborts_construction_witness :
    buildEncoders demoLookup [demoEntryX1, demoEntryX2] = none := by
  exact c1_collision_aborts_construction demoLookup demoEntryX1 demoEntryX2
    { type_id := 3, display_name := some "X" } [] (by rfl) (by rfl)

/-- C9: construction of the dispatch table is deterministic — equal
registries give equal results — and, when the two entries of a catalog do
not collide, registering them in either order produces tables with the
same bindings under every key. -/
theorem c9_construction_deterministic_order_independent :
    (∀ r₁ r₂ : Registry, r₁ = r₂ →
      EnvTypesTranscoder.new r₁ = EnvTypesTranscoder.new r₂) ∧
    (∀ (lookup : TypesByPath) (e₁ e₂ : EnvTypeEntry),
      (¬ ∃ k, EnvTypeId.new e₁ lookup = some k ∧ EnvTypeId.new e₂ lookup = some k) →
      ∃ m₁ m₂, buildEncoders lookup [e₁, e₂] = some m₁ ∧
        buildEncoders lookup [e₂, e₁] = some m₂ ∧
        ∀ k, alistGet m₁ k = alistGet m₂ k) := by
  constructor
  · intro r₁ r₂ h
    rw [h]
  · intro lookup e₁ e₂ hcol
    cases h1 : EnvTypeId.new e₁ lookup with
    | none =>
      cases h2 : EnvTypeId.new e₂ lookup with
      | none =>
        refine ⟨[], [], ?_, ?_, fun _ => rfl⟩ <;>
          simp [buildEncoders, List.foldlM, registerTranscoder, h1, h2]
      | some k₂ =>
        refine ⟨alistInsert [] k₂ e₂.encoder, alistInsert [] k₂ e₂.encoder, ?_, ?_,
          fun _ => rfl⟩ <;>
          simp [buildEncoders, List.foldlM, registerTranscoder, h1, h2, alistGet]
    | some k₁ =>
      cases h2 : EnvTypeId.new e₂ lookup with
      | none =>
        refine ⟨alistInsert [] k₁ e₁.encoder, alistInsert [] k₁ e₁.encoder, ?_, ?_,
          fun _ => rfl⟩ <;>
          simp [buildEncoders, List.foldlM, registerTranscoder, h1, h2, alistGet]
      | some k₂ =>
        have hk : k₁ ≠ k₂ := by
          intro h
          exact hcol ⟨k₁, h1, h ▸ h2⟩
        have hk2 : k₂ ≠ k₁ := Ne.symm hk
        refine ⟨alistInsert (alistInsert [] k₁ e₁.encoder) k₂ e₂.encoder,
          alistInsert (alistInsert [] k₂ e₂.encoder) k₁ e₁.encoder, ?_, ?_, ?_⟩
        · simp [buildEncoders, List.foldlM, registerTranscoder, h1, h2, alistGet,
            alistInsert, hk]
        · simp [buildEncoders, List.foldlM, registerTranscoder, h1, h2, alistGet,
            alistInsert, hk2]
        · intro k
          by_cases e1k : k₁ = k <;> by_cases e2k : k₂ = k <;>
            simp [alistGet, alistInsert, e1k, e2k]
          exact absurd (e1k.trans e2k.symm) hk

/-- Closed instance of C9: the collision-free entries `A` and `B` give,
in either registration order, tables agreeing on every key. -/
theorem c9_construction_deterministic_order_independent_witness :
    ∃ m₁ m₂, buildEncoders demoLookupAB [demoEntryA, demoEntryB] = some m₁ ∧
      buildEncoders demoLookupAB [demoEntryB, demoEntryA] = some m₂ ∧
      ∀ k, alistGet m₁ k = alistGet m₂ k := by
  exact c9_construction_deterministic_order_independent.2 demoLookupAB demoEntryA demoEntryB
    (by
      rintro ⟨k, hA, hB⟩
      have hA2 : EnvTypeId.new demoEntryA demoLookupAB =
          some { type_id := 1, display_name := some "A" } := by decide
      have hB2 : EnvTypeId.new demoEntryB demoLookupAB =
          some { type_id := 2, display_name := some "B" } := by decide
      rw [hA2] at hA
      rw [hB2] at hB
      rw [← hA] at hB
      simp at hB)

/-- Every table the registration step can produce binds only keys whose
display name is `some` alias; a key without display name is never bound. -/
theorem registerTranscoder_no_anonymous_key (lookup : TypesByPath) (m : EncoderMap)
    (e : EnvTypeEntry) (m' : EncoderMap)
    (h : registerTranscoder lookup m e = some m')
    (hm : ∀ tid : Nat, alistGet m { type_id := tid, display_name := none } = none) :
    ∀ tid : Nat, alistGet m' { type_id := tid, display_name := none } = none := by
  intro tid
  unfold registerTranscoder at h
  cases hn : EnvTypeId.new e lookup with
  | none =>
    rw [hn] at h
    cases h
    exact hm tid
  | some k =>
    rw [hn] at h
    by_cases hex : (alistGet m k).isSome
    · simp [hex] at h
    · simp [hex] at h
      have hk : k.display_name = some e.aliasName := by
        unfold EnvTypeId.new at hn
        cases hg : alistGet lookup e.typePath with
        | none => rw [hg] at hn; cases hn
        | some tid0 => rw [hg] at hn; cases hn; rfl
      rw [← h]
      have hne : k ≠ { type_id := tid, display_name := none } := by
        intro hkk
        rw [hkk] at hk
        cases hk
      simp [alistInsert, alistGet, hne]
      exact hm tid

/-- C10: a type descriptor whose display-name path has no segments derives
a key without alias; every key registered by construction carries a `some`
alias, so dispatch always reports `false` and writes nothing. -/
theorem c10_empty_display_name_never_handled (r : Registry) (ts : TypeSpec) (v : Value)
    (out : List Nat) (t : EnvTypesTranscoder)
    (hd : ts.displayName = [])
    (ht : EnvTypesTranscoder.new r = some t) :
    t.tryEncode ts v out = (.ok false, out) := by
  unfold EnvTypesTranscoder.new at ht
  simp at ht
  cases h1 : registerTranscoder (buildTypesByPath r) [] accountIdEnvType with
  | none => rw [h1] at ht; simp at ht
  | some m₁ =>
    rw [h1] at ht
    rw [Option.some_bind'] at ht
    cases h2 : registerTranscoder (buildTypesByPath r) m₁ balanceEnvType with
    | none => rw [h2] at ht; simp at ht
    | some m₂ =>
      rw [h2] at ht
      rw [Option.some_bind'] at ht
      injection ht with ht
      subst ht
      have hanon : ∀ tid : Nat, alistGet m₂ { type_id := tid, display_name := none } = none :=
        registerTranscoder_no_anonymous_key _ _ _ _ h2
          (registerTranscoder_no_anonymous_key _ _ _ _ h1 (fun _ => rfl))
      have hkey : EnvTypeId.ofTypeSpec ts = { type_id := ts.id, display_name := none } := by
        simp [EnvTypeId.ofTypeSpec, hd]
      simp [EnvTypesTranscoder.tryEncode, hkey, hanon ts.id]

/-- Closed instance of C10: against the transcoder built from the empty
registry, a descriptor with empty display-name path is never handled. -/
theorem c10_empty_display_name_never_handled_witness :
    EnvTypesTranscoder.tryEncode ⟨[]⟩ ⟨5, []⟩ (.literal "x") [7] = (.ok false, [7]) := by
  exact c10_empty_display_name_never_handled [] ⟨5, []⟩ (.literal "x") [7] ⟨[]⟩ rfl rfl

set_option maxRecDepth 10000 in
/-- C5: with the account-id path at registry id 3, construction registers
exactly the account-id encoder under {3, "AccountId"}, and dispatching the
well-known literal address against the descriptor {id: 3, alias:
"AccountId"} reports the argument handled and appends exactly the 32
public-key bytes of that address to the sink. -/
theorem c5_account_scenario (out : List Nat) :
    EnvTypesTranscoder.new scenarioRegistry =
      some ⟨[({ type_id := 3, display_name := some "AccountId" }, .accountId)]⟩ ∧
    EnvTypesTranscoder.tryEncode
        ⟨[({ type_id := 3, display_name := some "AccountId" }, .accountId)]⟩
        scenarioTypeSpec (.literal aliceAddress) out = (.ok true, out ++ alicePubkey) ∧
    alicePubkey.length = 32 :=
  ⟨rfl, rfl, rfl⟩

/-- The public key returned by a successful SS58 parse always has exactly
32 bytes: it is bytes 1..33 of a 35-byte base58 decoding. -/
theorem accountId32FromStr_length (s : String) (a : List Nat)
    (h : accountId32FromStr s = some a) : a.length = 32 := by
  unfold accountId32FromStr at h
  split at h
  · exact Option.noConfusion h
  · split at h
    · split at h
      · split at h
        · injection h with h
          subst h
          rw [List.length_take, List.length_drop]
          omega
        · exact Option.noConfusion h
      · exact Option.noConfusion h
    · exact Option.noConfusion h

/-- C6: the account-identifier encoder accepts a Literal or a quoted
String holding a parsable address (returning the parsed 32 bytes, never a
zero-filled substitute) and a ByteSequence of exactly 32 bytes; it fails
with InvalidAddressText on unparsable text, with InvalidByteLength on a
ByteSequence of any other length, and with UnsupportedValueShape on every
remaining SemanticValue variant. -/
theorem c6_account_encoder_classification (s : String) (bs : List Nat) :
    (accountId32FromStr s = none →
      accountIdEncode (.literal s) = .error (.invalidAddressText s) ∧
      accountIdEncode (.string s) = .error (.invalidAddressText s)) ∧
    (∀ a, accountId32FromStr s = some a →
      accountIdEncode (.literal s) = .ok a ∧
      accountIdEncode (.string s) = .ok a ∧ a.length = 32) ∧
    (bs.length = 32 → accountIdEncode (.bytes bs) = .ok bs) ∧
    (bs.length ≠ 32 → accountIdEncode (.bytes bs) = .error (.invalidByteLength bs.length)) ∧
    (∀ v : Value, v.isOtherShape = true → accountIdEncode v = .error .unsupportedValueShape) := by
  refine ⟨?_, ?_, ?_, ?_, ?_⟩
  · intro h
    constructor <;> simp [accountIdEncode, h]
  · intro a h
    exact ⟨by simp [accountIdEncode, h], by simp [accountIdEncode, h],
      accountId32FromStr_length s a h⟩
  · intro h
    simp [accountIdEncode, h]
  · intro h
    simp [accountIdEncode, h]
  · intro v hv
    cases v <;> simp_all [Value.isOtherShape, accountIdEncode]

set_option maxRecDepth 10000 in
/-- Closed instances of C6: an unparsable literal, a parsable literal, a
3-byte and a 32-byte ByteSequence, and a non-text non-byte shape. -/
theorem c6_account_encoder_classification_witness :
    accountIdEncode (.literal "not-an-address") =
      .error (.invalidAddressText "not-an-address") ∧
    accountIdEncode (.literal aliceAddress) = .ok alicePubkey ∧
    accountIdEncode (.bytes [1, 2, 3]) = .error (.invalidByteLength 3) ∧
    accountIdEncode (.bytes (List.replicate 32 0)) = .ok (List.replicate 32 0) ∧
    accountIdEncode .unit = .error .unsupportedValueShape := by
  refine ⟨((c6_account_encoder_classification "not-an-address" []).1 (by rfl)).1,
    ((c6_account_encoder_classification aliceAddress []).2.1 alicePubkey (by rfl)).1,
    (c6_account_encoder_classification "" [1, 2, 3]).2.2.2.1 (by decide),
    (c6_account_encoder_classification "" (List.replicate 32 0)).2.2.1 (by simp),
    (c6_account_encoder_classification "" []).2.2.2.2 .unit rfl⟩

/-- Unfolding equation of the scan: a resolvable id is recorded and the
scan moves on. -/
theorem go_succ_some (r : Registry) (fuel i : Nat) (acc : TypesByPath) (q : PathKey)
    (h : Registry.resolve r i = some q) :
    buildTypesByPathGo r (fuel + 1) i acc =
      buildTypesByPathGo r fuel (i + 1) (alistInsert acc q i) := by
  simp only [buildTypesByPathGo]
  rw [h]

/-- Unfolding equation of the scan: an unresolvable id stops it. -/
theorem go_succ_none (r : Registry) (fuel i : Nat) (acc : TypesByPath)
    (h : Registry.resolve r i = none) :
    buildTypesByPathGo r (fuel + 1) i acc = acc := by
  simp only [buildTypesByPathGo]
  rw [h]

/-- A resolvable id is among the keys of the registry list. -/
theorem resolve_mem_keys (r : Registry) (j : Nat)
    (h : (Registry.resolve r j).isSome = true) : j ∈ r.map Prod.fst := by
  induction r with
  | nil => simp [Registry.resolve, alistGet] at h
  | cons e rt ih =>
    by_cases he : e.1 = j
    · simp [List.map_cons, he]
    · have h2 : (Registry.resolve rt j).isSome = true := by
        simp only [Registry.resolve, alistGet] at h ⊢
        rw [if_neg he] at h
        exact h
      simp only [List.map_cons, List.mem_cons]
      exact Or.inr (ih h2)

/-- Pigeonhole bound behind the termination of the scanning loop: a
registry of `n` entries resolves at most `n` distinct ids, so among the
ids `1 ..= n + 1` at least one is unresolved. -/
theorem exists_unresolved_id (r : Registry) :
    ∃ j, 1 ≤ j ∧ j < 1 + (r.length + 1) ∧ Registry.resolve r j = none := by
  by_contra hc
  push_neg at hc
  have hsub : Finset.Icc 1 (r.length + 1) ⊆ (r.map Prod.fst).toFinset := by
    intro j hj
    rw [Finset.mem_Icc] at hj
    rw [List.mem_toFinset]
    apply resolve_mem_keys
    have hne := hc j hj.1 (by omega)
    cases hres : Registry.resolve r j with
    | none => exact absurd hres hne
    | some q => simp [hres]
  have hcard := Finset.card_le_card hsub
  rw [Nat.card_Icc] at hcard
  have hlen := List.toFinset_card_le (r.map Prod.fst)
  rw [List.length_map] at hlen
  omega

/-- Full characterisation of a lookup in the table produced by the scan,
relative to its current position `i`, accumulated table `acc`, and enough
fuel to reach the first unresolved id: path `p` maps to `v` exactly when
either `v` is the last id of the remaining contiguous scan whose path is
`p`, or `p` was already in `acc` and no remaining scanned id has path
`p`. -/
theorem go_get_char (r : Registry) :
    ∀ (fuel i : Nat) (acc : TypesByPath) (p : PathKey) (v : Nat),
    (∃ j, i ≤ j ∧ j < i + fuel ∧ Registry.resolve r j = none) →
    (alistGet (buildTypesByPathGo r fuel i acc) p = some v ↔
      ((i ≤ v ∧ scannedFrom r i v ∧ Registry.resolve r v = some p ∧
         ∀ j, v < j → scannedFrom r i j → Registry.resolve r j ≠ some p) ∨
       (alistGet acc p = some v ∧
         ∀ j, i ≤ j → scannedFrom r i j → Registry.resolve r j ≠ some p))) := by
  intro fuel
  induction fuel with
  | zero =>
    intro i acc p v hex
    obtain ⟨j, hj1, hj2, _⟩ := hex
    omega
  | succ fuel ih =>
    intro i acc p v hex
    cases hri : Registry.resolve r i with
    | none =>
      rw [go_succ_none r fuel i acc hri]
      constructor
      · intro hacc
        refine Or.inr ⟨hacc, ?_⟩
        intro j hij hscan
        have hs := hscan i (le_refl i) hij
        rw [hri] at hs
        cases hs
      · rintro (⟨hiv, hscan, _, _⟩ | ⟨hacc, _⟩)
        · have hs := hscan i (le_refl i) hiv
          rw [hri] at hs
          cases hs
        · exact hacc
    | some q =>
      rw [go_succ_some r fuel i acc q hri]
      have hex2 : ∃ j, i + 1 ≤ j ∧ j < i + 1 + fuel ∧ Registry.resolve r j = none := by
        obtain ⟨j, hj1, hj2, hjn⟩ := hex
        have hji : j ≠ i := by
          intro he
          rw [he, hri] at hjn
          cases hjn
        exact ⟨j, by omega, by omega, hjn⟩
      rw [ih (i + 1) (alistInsert acc q i) p v hex2]
      have hfwd : ∀ j, scannedFrom r i j → scannedFrom r (i + 1) j := by
        intro j hs m hm1 hm2
        exact hs m (by omega) hm2
      have hbwd : ∀ j, scannedFrom r (i + 1) j → scannedFrom r i j := by
        intro j hs m hm1 hm2
        by_cases hmi : m = i
        · rw [hmi, hri]
          rfl
        · exact hs m (by omega) hm2
      have hself : scannedFrom r i i := by
        intro m hm1 hm2
        have hmi : m = i := by omega
        rw [hmi, hri]
        rfl
      have hget : alistGet (alistInsert acc q i) p =
          if q = p then some i else alistGet acc p := rfl
      by_cases hqp : q = p
      · subst hqp
        rw [hget, if_pos rfl]
        constructor
        · rintro (⟨h1, h2, h3, h4⟩ | ⟨h1, h2⟩)
          · exact Or.inl ⟨by omega, hbwd v h2, h3, fun j hj hs => h4 j hj (hfwd j hs)⟩
          · injection h1 with h1
            subst h1
            exact Or.inl ⟨le_refl i, hself, hri, fun j hj hs => h2 j (by omega) (hfwd j hs)⟩
        · rintro (⟨h1, h2, h3, h4⟩ | ⟨h1, h2⟩)
          · by_cases hvi : v = i
            · subst hvi
              exact Or.inr ⟨rfl, fun j hj hs => h4 j (by omega) (hbwd j hs)⟩
            · exact Or.inl ⟨by omega, hfwd v h2, h3, fun j hj hs => h4 j hj (hbwd j hs)⟩
          · exact absurd hri (h2 i (le_refl i) hself)
      · rw [hget, if_neg hqp]
        have hne : Registry.resolve r i ≠ some p := by
          rw [hri]
          intro hc
          injection hc with hc
          exact hqp hc
        constructor
        · rintro (⟨h1, h2, h3, h4⟩ | ⟨h1, h2⟩)
          · exact Or.inl ⟨by omega, hbwd v h2, h3, fun j hj hs => h4 j hj (hfwd j hs)⟩
          · refine Or.inr ⟨h1, ?_⟩
            intro j hij hs
            by_cases hji : j = i
            · rw [hji]
              exact hne
            · exact h2 j (by omega) (hfwd j hs)
        · rintro (⟨h1, h2, h3, h4⟩ | ⟨h1, h2⟩)
          · have hvi : v ≠ i := by
              intro he
              rw [he] at h3
              exact hne h3
            exact Or.inl ⟨by omega, hfwd v h2, h3, fun j hj hs => h4 j hj (hbwd j hs)⟩
          · exact Or.inr ⟨h1, fun j hj hs => h2 j (by omega) (hbwd j hs)⟩

/-- C4: the path index is exactly the result of scanning ids 1, 2, …
upward and stopping at the first unresolved id — a path maps to id `i`
precisely when the scan reaches `i` (ids `1 ..= i` all resolve), id `i`
resolves to that path, and no later scanned id resolves to the same path
(so of two scanned ids sharing a path the later one wins); a registry that
cannot resolve id 1 yields the empty index, with no failure. -/
theorem c4_index_scan_characterization (r : Registry) (p : PathKey) :
    (Registry.resolve r 1 = none → buildTypesByPath r = []) ∧
    (∀ i, alistGet (buildTypesByPath r) p = some i ↔
      (1 ≤ i ∧ scannedFrom r 1 i ∧ Registry.resolve r i = some p ∧
        ∀ j, i < j → scannedFrom r 1 j → Registry.resolve r j ≠ some p)) := by
  constructor
  · intro h1
    unfold buildTypesByPath
    exact go_succ_none r r.length 1 [] h1
  · intro i
    unfold buildTypesByPath
    rw [go_get_char r (r.length + 1) 1 [] p i (exists_unresolved_id r)]
    simp [alistGet]

/-- Closed instance of C4: in a registry where ids 1 and 2 carry the same
path, the index maps that path to the later id 2; and the empty registry
yields the empty index. -/
theorem c4_index_scan_characterization_witness :
    Registry.resolve demoDupRegistry 2 = some ["p"] ∧ buildTypesByPath [] = [] := by
  constructor
  · exact (((c4_index_scan_characterization demoDupRegistry ["p"]).2 2).mp (by decide)).2.2.1
  · exact (c4_index_scan_characterization [] ["p"]).1 (by decide)

end EnvTypes
